import Mathlib

/-!
# twitchv1: the Twitch streams client (client.go)

A shallow embedding of `client.go`.  Go pointers are `Option` values (`none`
is `nil`), a call that can panic or end the process returns an `Outcome`,
and the objects the client reaches through pointers (the viper
configuration providers) live in an explicit `World` that every operation
threads through.  The library calls the file makes (`viper`, `net/http`,
`io`, `pkg/errors`) are modelled by the small definitions of the first
section, each with the behaviour the call site relies on.
-/

namespace Twitch

/-! ## Library values used by client.go -/

/-- One byte of a response body. -/
abbrev Byte := Fin 256

/-- A Go `error` value: a root error with its message, or an error wrapped
by `errors.Wrap` / `errors.Wrapf` with a message in front of its cause. -/
inductive GoError where
  | fundamental (msg : String)
  | withMessage (cause : GoError) (msg : String)
deriving DecidableEq, Repr

/-- The `Error()` method: the message of a wrapped error is its own message,
a colon and the message of its cause. -/
def GoError.Error : GoError → String
  | .fundamental msg => msg
  | .withMessage cause msg => msg ++ ": " ++ cause.Error

/-- The direct cause of an error, `none` for a root error. -/
def GoError.cause? : GoError → Option GoError
  | .fundamental _ => none
  | .withMessage cause _ => some cause

/-- `errors.Wrap(err, msg)` and `errors.Wrapf(err, format, args...)` at a
non-nil `err`, `msg` being the formatted message. -/
def errorsWrap (err : GoError) (msg : String) : GoError :=
  .withMessage err msg

/-- `errors.Errorf(format, args...)`, `msg` being the formatted message. -/
def errorsErrorf (msg : String) : GoError :=
  .fundamental msg

/-- The verb `%v` of `fmt` at an `int`: its decimal rendering. -/
def formatInt (n : Int) : String :=
  toString n

/-- A `viper.Viper` object, reduced to what `SetDefault` and `GetString`
see at a normalised key: the values found in the layers that take
precedence over defaults (overrides, flags, environment, configuration
file, key/value store), and the defaults layer. -/
structure Viper where
  higher : List (String × String)
  defaults : List (String × String)
deriving DecidableEq, Repr

/-- `v.SetDefault(key, value)`: writes the defaults layer, replacing an
earlier default of the key. -/
def Viper.SetDefault (v : Viper) (key value : String) : Viper :=
  { v with defaults := (key, value) :: v.defaults.filter (fun kv => kv.1 != key) }

/-- `v.Get(key)`: the higher layers first, then the defaults. -/
def Viper.Get (v : Viper) (key : String) : Option String :=
  match v.higher.lookup key with
  | some x => some x
  | none => v.defaults.lookup key

/-- `v.IsSet(key)`: the key has a value in some layer, defaults included. -/
def Viper.IsSet (v : Viper) (key : String) : Bool :=
  (v.Get key).isSome

/-- `v.GetString(key)`: the value of the key, the empty string when no
layer defines it. -/
def Viper.GetString (v : Viper) (key : String) : String :=
  (v.Get key).getD ""

/-- The bytes a header field name may hold (`validHeaderFieldByte`): the
token characters of HTTP. -/
def validHeaderFieldByte (c : Char) : Bool :=
  c.isAlphanum ||
    ['!', '#', '$', '%', '&', Char.ofNat 39, '*', '+', '-', '.', '^', '_',
      Char.ofNat 96, '|', '~'].contains c

/-- The case mapping of `textproto.CanonicalMIMEHeaderKey`: the first letter
and every letter after a hyphen in upper case, the others in lower case. -/
def canonicalCase : Bool → List Char → List Char
  | _, [] => []
  | upper, c :: cs =>
    let c' := if upper then c.toUpper else c.toLower
    c' :: canonicalCase (c' == '-') cs

/-- `textproto.CanonicalMIMEHeaderKey`: a name that holds a byte no header
field name may hold is returned unchanged. -/
def canonicalMIMEHeaderKey (s : String) : String :=
  if s.data.all validHeaderFieldByte then String.mk (canonicalCase true s.data) else s

/-- `http.Header`: a map from canonical field names to their values. -/
abbrev Header := List (String × List String)

/-- `h.Set(key, value)`: the entry of the canonical key becomes the single
value `value`. -/
def Header.Set (h : Header) (key value : String) : Header :=
  (canonicalMIMEHeaderKey key, [value]) ::
    h.filter (fun kv => kv.1 != canonicalMIMEHeaderKey key)

/-- `h.Values(key)`: all values of the canonical key. -/
def Header.Values (h : Header) (key : String) : List String :=
  (h.lookup (canonicalMIMEHeaderKey key)).getD []

/-- `http.Request`, reduced to the fields `http.NewRequest` fills from its
arguments and the header; `url` is the string given to `http.NewRequest`. -/
structure Request where
  method : String
  url : String
  body : Option (List Byte)
  header : Header
deriving DecidableEq, Repr

/-- `http.MethodGet`. -/
def MethodGet : String := "GET"

/-- `http.StatusOK`. -/
def StatusOK : Int := 200

/-- `http.NewRequest(method, url, body)` at a valid method such as GET (the
only one `client.go` passes): fails with the error of parsing `url`
(`parseURL`, the behaviour of `net/url`), and otherwise returns a request of
that method, URL and body with an empty header. -/
def NewRequest (parseURL : String → Option GoError) (method url : String)
    (body : Option (List Byte)) : Except GoError Request :=
  match parseURL url with
  | some err => .error err
  | none => .ok { method := method, url := url, body := body, header := [] }

/-- A response body as a reader: the chunks successive `Read` calls
return, then `io.EOF` (`none`) or a read error. -/
structure Body where
  chunks : List (List Byte)
  err : Option GoError
deriving DecidableEq, Repr

/-- `http.Response`, reduced to the status code and the body. -/
structure Response where
  StatusCode : Int
  Body : Body
deriving DecidableEq, Repr

/-- `http.Client`, reduced to what `Do` answers to a request: a transport
error or a response. -/
structure HttpClient where
  Do : Request → Except GoError Response

/-- `bytes.Buffer`, reduced to its unread content. -/
structure Buffer where
  bytes : List Byte
deriving DecidableEq, Repr

/-- `new(bytes.Buffer)`. -/
def Buffer.new : Buffer := ⟨[]⟩

/-- `b.Write(p)`: appends `p`. -/
def Buffer.Write (b : Buffer) (p : List Byte) : Buffer :=
  ⟨b.bytes ++ p⟩

/-- The loop of `io.Copy`: every chunk read is written to `dst`. -/
def copyChunks (dst : Buffer) (written : Nat) : List (List Byte) → Buffer × Nat
  | [] => (dst, written)
  | chunk :: rest => copyChunks (dst.Write chunk) (written + chunk.length) rest

/-- `io.Copy(dst, src)`: copies until `io.EOF` or a read error; returns the
destination, the number of bytes written and the error (`none` at EOF). -/
def ioCopy (dst : Buffer) (src : Body) : Buffer × Nat × Option GoError :=
  let r := copyChunks dst 0 src.chunks
  (r.1, r.2, src.err)

/-! ## State and outcomes -/

/-- What the process holds outside the `Client`: the viper objects by
address, the behaviour of URL parsing, the requests handed to a transport
so far, and the number of response bodies closed so far. -/
structure World where
  vipers : Nat → Viper
  parseURL : String → Option GoError
  sent : List Request
  closed : Nat

/-- How a call ends: it returns, it panics (a nil dereference), or it ends
the process through `log.Fatal`. -/
inductive Outcome (α : Type) where
  | ret (a : α)
  | panic
  | fatal (msg : String)

/-- The call returned. -/
def Outcome.returned {α : Type} : Outcome α → Bool
  | .ret _ => true
  | _ => false

/-! ## client.go -/

/-- `ClientID`, the name of the authorization header. -/
def ClientID : String := "Client-ID"

/-- `EnvTwitchClientID`, the configuration key of the client identifier. -/
def EnvTwitchClientID : String := "twitch_client_id"

/-- `StreamsURL`, the twitch API Streams URL. -/
def StreamsURL : String := "https://api.twitch.tv/helix/streams"

/-- `Client`: the two dependencies, each a pointer that may be nil. -/
structure Client where
  viper : Option Nat
  httpClient : Option HttpClient

/-- `new(Client)`: both fields nil. -/
def Client.new : Client := { viper := none, httpClient := none }

/-- `ClientOption`, a `func(*Client)`: it may change the client and the
world, and it may not return. -/
abbrev ClientOption := Client → World → Outcome (Client × World)

/-- `WithHttpClient(httpClient)`. -/
def WithHttpClient (httpClient : Option HttpClient) : ClientOption :=
  fun c w => .ret ({ c with httpClient := httpClient }, w)

/-- `WithViper(v)`: `v.SetDefault` dereferences `v`, so a nil `v` panics. -/
def WithViper (v : Option Nat) : ClientOption :=
  fun c w =>
    match v with
    | none => .panic
    | some p =>
      let v' := (w.vipers p).SetDefault EnvTwitchClientID "kkjo0gmafpxng9jlmod6g8x0z7rjjj"
      .ret ({ c with viper := some p }, { w with vipers := Function.update w.vipers p v' })

/-- The loop of `NewClient`: the options applied in order. -/
def applyOptions : List ClientOption → Client → World → Outcome (Client × World)
  | [], c, w => .ret (c, w)
  | option :: rest, c, w =>
    match option c w with
    | .ret (c', w') => applyOptions rest c' w'
    | .panic => .panic
    | .fatal msg => .fatal msg

/-- `NewClient(options...)`. -/
def NewClient (options : List ClientOption) (w : World) : Outcome (Client × World) :=
  match applyOptions options Client.new w with
  | .ret (c, w') =>
    if c.httpClient.isNone then .fatal "failed to initialize httpClient field"
    else if c.viper.isNone then .fatal "failed to initialize viper field"
    else .ret (c, w')
  | .panic => .panic
  | .fatal msg => .fatal msg

/-- The pair `(*bytes.Buffer, error)` a strategy returns. -/
abbrev StreamsResult := Option Buffer × Option GoError

/-- `StreamsBy`, a `func() (*bytes.Buffer, error)`. -/
abbrev StreamsBy := World → Outcome (StreamsResult × World)

/-- `c.Streams(by)`. -/
def Client.Streams (_c : Client) (by_ : StreamsBy) : StreamsBy :=
  fun w => by_ w

/-- `c.ByUserLogin(userLogin)`. -/
def Client.ByUserLogin (c : Client) (userLogin : String) : StreamsBy :=
  fun w =>
    let url := StreamsURL ++ "?user_login=" ++ userLogin
    match NewRequest w.parseURL MethodGet url none with
    | .error err =>
      .ret ((none, some (errorsWrap err "failed to create streams http.Request")), w)
    | .ok req =>
      match c.viper with
      | none => .panic
      | some v =>
        let req : Request := { req with
          header := Header.Set req.header ClientID (Viper.GetString (w.vipers v) EnvTwitchClientID) }
        match c.httpClient with
        | none => .panic
        | some httpClient =>
          let w := { w with sent := w.sent ++ [req] }
          match httpClient.Do req with
          | .error err =>
            .ret ((none, some (errorsWrap err
              ("failed to retrieve Streams by userLogin " ++ userLogin))), w)
          | .ok resp =>
            -- defer resp.Body.Close()
            let w := { w with closed := w.closed + 1 }
            if resp.StatusCode ≠ StatusOK then
              .ret ((none, some (errorsErrorf
                ("failed to retrieve Streams by userLogin " ++ userLogin ++
                  ", StatusCode = " ++ formatInt resp.StatusCode))), w)
            else
              let streams := Buffer.new
              match ioCopy streams resp.Body with
              | (_, _, some err) =>
                .ret ((none, some (errorsWrap err "failed to Copy streams into buffer")), w)
              | (streams, _, none) => .ret ((some streams, none), w)

/-! ## Derived notions used in the statements -/

/-- The request a strategy of `ByUserLogin` builds from the configured
client identifier and the login, field by field. -/
def streamsRequest (clientID userLogin : String) : Request :=
  { method := "GET"
    url := "https://api.twitch.tv/helix/streams" ++ "?user_login=" ++ userLogin
    body := none
    header := [("Client-Id", [clientID])] }

/-- The world after a strategy that reached the transport: one more request
sent; `closedBodies` more response bodies closed. -/
def World.afterSend (w : World) (req : Request) (closedBodies : Nat) : World :=
  { w with sent := w.sent ++ [req], closed := w.closed + closedBodies }

/-- The value of a decimal digit character, `none` for any other character. -/
def digitValue (c : Char) : Option Nat :=
  if 48 ≤ c.toNat ∧ c.toNat ≤ 57 then some (c.toNat - 48) else none

/-- The number a list of decimal digits denotes, least significant digit
first; `none` when a character is not a decimal digit. -/
def littleEndianValue : List Char → Option Nat
  | [] => some 0
  | c :: cs =>
    match digitValue c, littleEndianValue cs with
    | some d, some n => some (d + 10 * n)
    | _, _ => none

/-- The integer a string denotes in decimal: a non-empty run of decimal
digits, with a minus sign in front for a negative number; `none` for any
other string. -/
def decimalValue (s : String) : Option Int :=
  match s.data with
  | [] => none
  | c :: cs =>
    if c = '-' then
      match cs, littleEndianValue cs.reverse with
      | _ :: _, some n => some (-(Int.ofNat n))
      | _, _ => none
    else
      match littleEndianValue (c :: cs).reverse with
      | some n => some (Int.ofNat n)
      | none => none

/-- A provider with no value at all. -/
def emptyViper : Viper := { higher := [], defaults := [] }

/-- A world of empty providers in which every URL parses. -/
def quietWorld : World :=
  { vipers := fun _ => emptyViper, parseURL := fun _ => none, sent := [], closed := 0 }

/-- A transport that gives the same answer to every request. -/
def constTransport (r : Except GoError Response) : HttpClient := { Do := fun _ => r }

/-- A client whose provider is at address 0 and whose transport always
gives `r`. -/
def constClient (r : Except GoError Response) : Client :=
  { viper := some 0, httpClient := some (constTransport r) }

/-- A provider whose only value is a default of the client identifier. -/
def defaultedViper : Viper :=
  { higher := [], defaults := [("twitch_client_id", "my-own-client-id")] }

/-- A world whose providers all are `defaultedViper`. -/
def defaultedWorld : World :=
  { vipers := fun _ => defaultedViper, parseURL := fun _ => none, sent := [], closed := 0 }

/-! ## Lemmas -/

theorem copyChunks_eq (chunks : List (List Byte)) (dst : Buffer) (n : Nat) :
    copyChunks dst n chunks = (⟨dst.bytes ++ chunks.flatten⟩, n + chunks.flatten.length) := by
  induction chunks generalizing dst n with
  | nil => simp [copyChunks]
  | cons chunk rest ih => simp [copyChunks, ih, Buffer.Write, Nat.add_assoc]

theorem ioCopy_new (src : Body) :
    ioCopy Buffer.new src = (⟨src.chunks.flatten⟩, src.chunks.flatten.length, src.err) := by
  simp [ioCopy, copyChunks_eq, Buffer.new]

theorem data_infix_mid (a s b t : String) (h : t = a ++ (s ++ b)) : s.data <:+: t.data := by
  subst h
  exact ⟨a.data, b.data, by simp [String.data_append]⟩

theorem digitValue_digitChar (d : Nat) (h : d < 10) : digitValue (Nat.digitChar d) = some d := by
  interval_cases d <;> rfl

theorem toDigitsCore_append (fuel : Nat) : ∀ (n : Nat) (ds : List Char),
    Nat.toDigitsCore 10 fuel n ds = Nat.toDigitsCore 10 fuel n [] ++ ds := by
  induction fuel with
  | zero => intro n ds; simp [Nat.toDigitsCore]
  | succ fuel ih =>
    intro n ds
    simp only [Nat.toDigitsCore]
    by_cases h : n / 10 = 0
    · simp [h]
    · simp only [h, if_false]
      rw [ih (n / 10) (Nat.digitChar (n % 10) :: ds), ih (n / 10) [Nat.digitChar (n % 10)]]
      simp

theorem littleEndianValue_toDigitsCore (fuel : Nat) : ∀ n : Nat, n < fuel →
    littleEndianValue (Nat.toDigitsCore 10 fuel n []).reverse = some n ∧
      Nat.toDigitsCore 10 fuel n [] ≠ [] := by
  induction fuel with
  | zero => intro n h; omega
  | succ fuel ih =>
    intro n hn
    simp only [Nat.toDigitsCore]
    by_cases h : n / 10 = 0
    · have hlt : n < 10 := by omega
      have hmod : n % 10 = n := Nat.mod_eq_of_lt hlt
      simp [h, littleEndianValue, hmod, digitValue_digitChar n hlt]
    · have hlt : n / 10 < fuel := by omega
      obtain ⟨hv, hne⟩ := ih (n / 10) hlt
      simp only [h, if_false]
      rw [toDigitsCore_append fuel (n / 10) [Nat.digitChar (n % 10)]]
      refine ⟨?_, by simp⟩
      simp only [List.reverse_append, List.reverse_cons, List.reverse_nil, List.nil_append,
        List.singleton_append, littleEndianValue, hv,
        digitValue_digitChar (n % 10) (Nat.mod_lt _ (by decide))]
      congr 1
      omega

theorem digitValue_of_littleEndianValue (l : List Char) (n : Nat)
    (h : littleEndianValue l = some n) : ∀ c ∈ l, digitValue c ≠ none := by
  induction l generalizing n with
  | nil => simp
  | cons a rest ih =>
    intro c hc
    simp only [littleEndianValue] at h
    cases ha : digitValue a with
    | none => simp [ha] at h
    | some d =>
      cases hr : littleEndianValue rest with
      | none => simp [ha, hr] at h
      | some m =>
        rcases List.mem_cons.1 hc with rfl | hmem
        · simp [ha]
        · exact ih m hr c hmem

theorem decimalValue_natRepr (m : Nat) : decimalValue (Nat.repr m) = some (m : Int) := by
  obtain ⟨hv, hne⟩ := littleEndianValue_toDigitsCore (m + 1) m (Nat.lt_succ_self m)
  have hdata : (Nat.repr m).data = Nat.toDigitsCore 10 (m + 1) m [] := rfl
  unfold decimalValue
  rw [hdata]
  cases hl : Nat.toDigitsCore 10 (m + 1) m [] with
  | nil => exact absurd hl hne
  | cons c cs =>
    rw [hl] at hv
    have hc : digitValue c ≠ none :=
      digitValue_of_littleEndianValue _ m hv c (by simp)
    have hminus : c ≠ '-' := by
      rintro rfl
      exact hc (by decide)
    simp only [hminus, if_false, hv]
    rfl

theorem decimalValue_formatInt (n : Int) : decimalValue (formatInt n) = some n := by
  cases n with
  | ofNat m => exact decimalValue_natRepr m
  | negSucc m =>
    obtain ⟨hv, hne⟩ := littleEndianValue_toDigitsCore (m + 1 + 1) (m + 1) (Nat.lt_succ_self _)
    have hdata : (formatInt (Int.negSucc m)).data
        = '-' :: Nat.toDigitsCore 10 (m + 1 + 1) (m + 1) [] := rfl
    unfold decimalValue
    rw [hdata]
    cases hl : Nat.toDigitsCore 10 (m + 1 + 1) (m + 1) [] with
    | nil => exact absurd hl hne
    | cons c cs =>
      rw [hl] at hv
      simp only [if_true, hv]
      rfl

theorem canonical_ClientID : canonicalMIMEHeaderKey ClientID = "Client-Id" := by
  decide

/-- What a strategy does once the request is built and both dependencies are
present: the request `streamsRequest` goes to the transport and the answer
decides the result. -/
theorem ByUserLogin_run (c : Client) (w : World) (userLogin : String) (v : Nat)
    (hc : HttpClient) (hv : c.viper = some v) (hh : c.httpClient = some hc)
    (hurl : w.parseURL (StreamsURL ++ "?user_login=" ++ userLogin) = none) :
    c.ByUserLogin userLogin w =
      (let req := streamsRequest ((w.vipers v).GetString EnvTwitchClientID) userLogin
       match hc.Do req with
       | .error err =>
         .ret ((none, some (errorsWrap err
           ("failed to retrieve Streams by userLogin " ++ userLogin))), w.afterSend req 0)
       | .ok resp =>
         if resp.StatusCode ≠ 200 then
           .ret ((none, some (errorsErrorf
             ("failed to retrieve Streams by userLogin " ++ userLogin ++
               ", StatusCode = " ++ formatInt resp.StatusCode))), w.afterSend req 1)
         else
           match resp.Body.err with
           | some err =>
             .ret ((none, some (errorsWrap err "failed to Copy streams into buffer")),
               w.afterSend req 1)
           | none => .ret ((some ⟨resp.Body.chunks.flatten⟩, none), w.afterSend req 1)) := by
  have hreq : (⟨MethodGet, StreamsURL ++ "?user_login=" ++ userLogin, none,
      Header.Set [] ClientID ((w.vipers v).GetString EnvTwitchClientID)⟩ : Request) =
      streamsRequest ((w.vipers v).GetString EnvTwitchClientID) userLogin := by
    simp [streamsRequest, Header.Set, canonical_ClientID, MethodGet, StreamsURL]
  simp only [Client.ByUserLogin, NewRequest, hurl, hv, hh, hreq]
  cases hdo : hc.Do (streamsRequest ((w.vipers v).GetString EnvTwitchClientID) userLogin) with
  | error err => simp [World.afterSend]
  | ok resp =>
    by_cases hs : resp.StatusCode = 200
    · cases he : resp.Body.err <;> simp [hs, StatusOK, ioCopy_new, he, World.afterSend]
    · simp [hs, StatusOK, World.afterSend]

/-- A strategy whose request cannot be built returns the wrapped error and
leaves the world as it was, whatever the dependencies. -/
theorem ByUserLogin_request_error (c : Client) (w : World) (userLogin : String) (e : GoError)
    (hurl : w.parseURL (StreamsURL ++ "?user_login=" ++ userLogin) = some e) :
    c.ByUserLogin userLogin w =
      .ret ((none, some (errorsWrap e "failed to create streams http.Request")), w) := by
  simp only [Client.ByUserLogin, NewRequest, hurl]

/-- A strategy that reaches the transport returns, and it has handed the
transport exactly the request `streamsRequest`. -/
theorem ByUserLogin_sends (c : Client) (w : World) (userLogin : String) (v : Nat)
    (hc : HttpClient) (hv : c.viper = some v) (hh : c.httpClient = some hc)
    (hurl : w.parseURL (StreamsURL ++ "?user_login=" ++ userLogin) = none) :
    ∃ res n, c.ByUserLogin userLogin w = .ret (res, w.afterSend
      (streamsRequest ((w.vipers v).GetString EnvTwitchClientID) userLogin) n) := by
  rw [ByUserLogin_run c w userLogin v hc hv hh hurl]
  dsimp only
  cases hdo : hc.Do (streamsRequest ((w.vipers v).GetString EnvTwitchClientID) userLogin) with
  | error err => exact ⟨_, 0, rfl⟩
  | ok resp =>
    by_cases hs : resp.StatusCode = 200
    · cases he : resp.Body.err with
      | none => exact ⟨(some ⟨resp.Body.chunks.flatten⟩, none), 1, by simp [hs, he]⟩
      | some err =>
        exact ⟨(none, some (errorsWrap err "failed to Copy streams into buffer")), 1,
          by simp [hs, he]⟩
    · exact ⟨(none, some (errorsErrorf ("failed to retrieve Streams by userLogin " ++
        userLogin ++ ", StatusCode = " ++ formatInt resp.StatusCode))), 1, by simp [hs]⟩

/-- Removing the entries of one key from an association list leaves the
value of every other key. -/
theorem lookup_filter_other (l : List (String × String)) (key k : String) (hk : k ≠ key) :
    (l.filter (fun kv => kv.1 != key)).lookup k = l.lookup k := by
  induction l with
  | nil => rfl
  | cons kv rest ih =>
    obtain ⟨a, b⟩ := kv
    by_cases ha : a = key
    · subst ha
      have hne : (k == a) = false := by simpa using hk
      simp [List.filter, List.lookup, hne, ih]
    · have hne : (a != key) = true := by simpa using ha
      cases hka : k == a <;> simp [List.filter, List.lookup, hne, hka, ih]

/-- `SetDefault` leaves the value of every other key. -/
theorem Get_SetDefault_other (v : Viper) (key value k : String) (hk : k ≠ key) :
    (v.SetDefault key value).Get k = v.Get k := by
  have hne : (k == key) = false := by simpa using hk
  simp [Viper.Get, Viper.SetDefault, List.lookup, hne, lookup_filter_other _ _ _ hk]

/-- After `SetDefault`, a key with no value above the defaults reads as the
new default. -/
theorem Get_SetDefault_self (v : Viper) (key value : String)
    (h : v.higher.lookup key = none) : (v.SetDefault key value).Get key = some value := by
  simp [Viper.Get, Viper.SetDefault, List.lookup, h]

/-- After `SetDefault`, a key with a value above the defaults keeps it. -/
theorem Get_SetDefault_higher (v : Viper) (key value x : String)
    (h : v.higher.lookup key = some x) : (v.SetDefault key value).Get key = some x := by
  simp [Viper.Get, Viper.SetDefault, h]

/-- The five ways a strategy whose client has both dependencies can end. -/
theorem ByUserLogin_cases (c : Client) (w : World) (userLogin : String) (v : Nat)
    (hc : HttpClient) (hv : c.viper = some v) (hh : c.httpClient = some hc) :
    ∃ res w', c.ByUserLogin userLogin w = .ret (res, w') ∧
      ((∃ e, res = (none, some e)) ∨
        ∃ resp, hc.Do (streamsRequest ((w.vipers v).GetString EnvTwitchClientID) userLogin)
          = .ok resp ∧ resp.StatusCode = 200 ∧ resp.Body.err = none ∧
          res = (some ⟨resp.Body.chunks.flatten⟩, none)) := by
  cases hurl : w.parseURL (StreamsURL ++ "?user_login=" ++ userLogin) with
  | some e0 =>
    exact ⟨_, _, ByUserLogin_request_error c w userLogin e0 hurl, Or.inl ⟨_, rfl⟩⟩
  | none =>
    rw [ByUserLogin_run c w userLogin v hc hv hh hurl]
    dsimp only
    cases hdo : hc.Do (streamsRequest ((w.vipers v).GetString EnvTwitchClientID) userLogin) with
    | error err => exact ⟨_, _, rfl, Or.inl ⟨_, rfl⟩⟩
    | ok resp =>
      by_cases hs : resp.StatusCode = 200
      · cases he : resp.Body.err with
        | none =>
          exact ⟨(some ⟨resp.Body.chunks.flatten⟩, none),
            w.afterSend (streamsRequest ((w.vipers v).GetString EnvTwitchClientID) userLogin) 1,
            by simp [hs, he], Or.inr ⟨resp, rfl, hs, he, rfl⟩⟩
        | some err =>
          exact ⟨(none, some (errorsWrap err "failed to Copy streams into buffer")),
            w.afterSend (streamsRequest ((w.vipers v).GetString EnvTwitchClientID) userLogin) 1,
            by simp [hs, he], Or.inl ⟨_, rfl⟩⟩
      · exact ⟨(none, some (errorsErrorf ("failed to retrieve Streams by userLogin " ++
          userLogin ++ ", StatusCode = " ++ formatInt resp.StatusCode))),
          w.afterSend (streamsRequest ((w.vipers v).GetString EnvTwitchClientID) userLogin) 1,
          by simp [hs], Or.inl ⟨_, rfl⟩⟩

/-! ## The claims -/

/-- C1: when the request is built and the transport answers with status 200
and a body that reads out as `b` without a read error, the strategy of
`ByUserLogin`, run through `Streams`, returns a nil error and a buffer whose
content is exactly `b`. -/
theorem Streams_ByUserLogin_ok (c : Client) (w : World) (userLogin : String) (v : Nat)
    (hc : HttpClient) (resp : Response) (b : List Byte)
    (hv : c.viper = some v) (hh : c.httpClient = some hc)
    (hurl : w.parseURL (StreamsURL ++ "?user_login=" ++ userLogin) = none)
    (hdo : hc.Do (streamsRequest ((w.vipers v).GetString EnvTwitchClientID) userLogin)
      = .ok resp)
    (hstatus : resp.StatusCode = 200)
    (hbody : resp.Body.chunks.flatten = b) (heof : resp.Body.err = none) :
    ∃ buf w', c.Streams (c.ByUserLogin userLogin) w = .ret ((some buf, none), w') ∧
      buf.bytes = b ∧ buf.bytes.length = b.length := by
  refine ⟨⟨b⟩, w.afterSend
    (streamsRequest ((w.vipers v).GetString EnvTwitchClientID) userLogin) 1, ?_, rfl, rfl⟩
  simp only [Client.Streams]
  rw [ByUserLogin_run c w userLogin v hc hv hh hurl]
  simp [hdo, hstatus, heof, hbody]

theorem Streams_ByUserLogin_ok_witness :
    ∃ buf w', (constClient (.ok ⟨200, ⟨[[104, 105], [], [33]], none⟩⟩)).Streams
        ((constClient (.ok ⟨200, ⟨[[104, 105], [], [33]], none⟩⟩)).ByUserLogin "summit1g")
        quietWorld = .ret ((some buf, none), w') ∧
      buf.bytes = [104, 105, 33] ∧ buf.bytes.length = [(104 : Byte), 105, 33].length :=
  Streams_ByUserLogin_ok (constClient (.ok ⟨200, ⟨[[104, 105], [], [33]], none⟩⟩)) quietWorld
    "summit1g" 0 (constTransport (.ok ⟨200, ⟨[[104, 105], [], [33]], none⟩⟩))
    ⟨200, ⟨[[104, 105], [], [33]], none⟩⟩ [104, 105, 33] rfl rfl rfl rfl rfl rfl rfl

/-- C2: when the transport answers with a status other than 200, the
strategy of `ByUserLogin` returns a nil buffer and an error whose message
holds the login and the decimal rendering of the status (a string that reads
back in decimal as the status), whatever the body. -/
theorem ByUserLogin_status_not_ok (c : Client) (w : World) (userLogin : String) (v : Nat)
    (hc : HttpClient) (resp : Response)
    (hv : c.viper = some v) (hh : c.httpClient = some hc)
    (hurl : w.parseURL (StreamsURL ++ "?user_login=" ++ userLogin) = none)
    (hdo : hc.Do (streamsRequest ((w.vipers v).GetString EnvTwitchClientID) userLogin)
      = .ok resp)
    (hstatus : resp.StatusCode ≠ 200) :
    ∃ err w' digits, c.ByUserLogin userLogin w = .ret ((none, some err), w') ∧
      digits = formatInt resp.StatusCode ∧
      decimalValue digits = some resp.StatusCode ∧
      err.Error = "failed to retrieve Streams by userLogin " ++ userLogin ++
        ", StatusCode = " ++ digits ∧
      err.cause? = none ∧
      userLogin.data <:+: err.Error.data ∧
      digits.data <:+: err.Error.data := by
  refine ⟨errorsErrorf ("failed to retrieve Streams by userLogin " ++ userLogin ++
    ", StatusCode = " ++ formatInt resp.StatusCode), w.afterSend
    (streamsRequest ((w.vipers v).GetString EnvTwitchClientID) userLogin) 1,
    formatInt resp.StatusCode, ?_, rfl, decimalValue_formatInt _, rfl, rfl, ?_, ?_⟩
  · rw [ByUserLogin_run c w userLogin v hc hv hh hurl]
    simp [hdo, hstatus]
  · exact data_infix_mid "failed to retrieve Streams by userLogin " _
      (", StatusCode = " ++ formatInt resp.StatusCode) _
      (by simp [errorsErrorf, GoError.Error, String.append_assoc])
  · exact data_infix_mid ("failed to retrieve Streams by userLogin " ++ userLogin ++
      ", StatusCode = ") _ "" _ (by simp [errorsErrorf, GoError.Error])

theorem ByUserLogin_status_not_ok_witness :
    ∃ err w', (constClient (.ok ⟨404, ⟨[[1, 2]], none⟩⟩)).ByUserLogin "penutty" quietWorld
        = .ret ((none, some err), w') ∧
      decimalValue "404" = some 404 ∧
      err.Error = "failed to retrieve Streams by userLogin penutty, StatusCode = 404" ∧
      err.cause? = none ∧
      "penutty".data <:+: err.Error.data ∧
      "404".data <:+: err.Error.data := by
  obtain ⟨err, w', digits, hrun, hdigits, hval, hmsg, hcause, hlogin, hcode⟩ :=
    ByUserLogin_status_not_ok (constClient (.ok ⟨404, ⟨[[1, 2]], none⟩⟩)) quietWorld "penutty" 0
      (constTransport (.ok ⟨404, ⟨[[1, 2]], none⟩⟩)) ⟨404, ⟨[[1, 2]], none⟩⟩ rfl rfl rfl rfl
      (by decide)
  have h404 : formatInt 404 = "404" := by decide
  rw [h404] at hdigits
  subst hdigits
  exact ⟨err, w', hrun, hval, by rw [hmsg]; decide, hcause, hlogin, hcode⟩

/-- C8: when the transport fails with `e`, the strategy of `ByUserLogin`
returns a nil buffer and an error that wraps `e` as its cause and whose
message holds the login. -/
theorem ByUserLogin_transport_error (c : Client) (w : World) (userLogin : String) (v : Nat)
    (hc : HttpClient) (e : GoError)
    (hv : c.viper = some v) (hh : c.httpClient = some hc)
    (hurl : w.parseURL (StreamsURL ++ "?user_login=" ++ userLogin) = none)
    (hdo : hc.Do (streamsRequest ((w.vipers v).GetString EnvTwitchClientID) userLogin)
      = .error e) :
    ∃ err w', c.ByUserLogin userLogin w = .ret ((none, some err), w') ∧
      err.cause? = some e ∧
      err.Error = "failed to retrieve Streams by userLogin " ++ userLogin ++ ": " ++ e.Error ∧
      userLogin.data <:+: err.Error.data := by
  refine ⟨errorsWrap e ("failed to retrieve Streams by userLogin " ++ userLogin), w.afterSend
    (streamsRequest ((w.vipers v).GetString EnvTwitchClientID) userLogin) 0, ?_, rfl, rfl, ?_⟩
  · rw [ByUserLogin_run c w userLogin v hc hv hh hurl]
    simp [hdo]
  · exact data_infix_mid "failed to retrieve Streams by userLogin " _ (": " ++ e.Error) _
      (by simp [errorsWrap, GoError.Error, String.append_assoc])

theorem ByUserLogin_transport_error_witness :
    ∃ err w', (constClient (.error (.fundamental "dial tcp: timeout"))).ByUserLogin "penutty"
        quietWorld = .ret ((none, some err), w') ∧
      err.cause? = some (.fundamental "dial tcp: timeout") ∧
      err.Error = "failed to retrieve Streams by userLogin " ++ "penutty" ++ ": " ++
        (GoError.fundamental "dial tcp: timeout").Error ∧
      "penutty".data <:+: err.Error.data :=
  ByUserLogin_transport_error (constClient (.error (.fundamental "dial tcp: timeout")))
    quietWorld "penutty" 0 (constTransport (.error (.fundamental "dial tcp: timeout")))
    (.fundamental "dial tcp: timeout") rfl rfl rfl rfl

/-- C10: `c.Streams(by)` is one invocation of `by`: the same result and the
same effect on the world, whatever the client. -/
theorem Streams_eq (c : Client) (by_ : StreamsBy) : c.Streams by_ = by_ := by
  funext w
  rfl

/-- C4: the request a strategy of `ByUserLogin` hands to the transport has
method GET, no body, and the URL "https://api.twitch.tv/helix/streams"
followed by "?user_login=" and the login, unchanged. -/
theorem ByUserLogin_request_line (c : Client) (w : World) (userLogin : String) (v : Nat)
    (hc : HttpClient) (hv : c.viper = some v) (hh : c.httpClient = some hc)
    (hurl : w.parseURL (StreamsURL ++ "?user_login=" ++ userLogin) = none) :
    ∃ res w' req, c.ByUserLogin userLogin w = .ret (res, w') ∧
      w'.sent = w.sent ++ [req] ∧
      req.method = "GET" ∧ req.body = none ∧
      req.url = "https://api.twitch.tv/helix/streams" ++ "?user_login=" ++ userLogin ∧
      req.url.data = "https://api.twitch.tv/helix/streams?user_login=".data ++ userLogin.data := by
  obtain ⟨res, n, h⟩ := ByUserLogin_sends c w userLogin v hc hv hh hurl
  exact ⟨res, _, _, h, rfl, rfl, rfl, rfl, by simp [streamsRequest, String.data_append]⟩

theorem ByUserLogin_request_line_witness :
    ∃ res w' req, (constClient (.ok ⟨200, ⟨[[1]], none⟩⟩)).ByUserLogin "a b&c=d#e" quietWorld
        = .ret (res, w') ∧
      w'.sent = quietWorld.sent ++ [req] ∧
      req.method = "GET" ∧ req.body = none ∧
      req.url = "https://api.twitch.tv/helix/streams" ++ "?user_login=" ++ "a b&c=d#e" ∧
      req.url.data =
        "https://api.twitch.tv/helix/streams?user_login=".data ++ "a b&c=d#e".data :=
  ByUserLogin_request_line (constClient (.ok ⟨200, ⟨[[1]], none⟩⟩)) quietWorld "a b&c=d#e" 0
    (constTransport (.ok ⟨200, ⟨[[1]], none⟩⟩)) rfl rfl rfl

/-- C5: the request a strategy of `ByUserLogin` hands to the transport
carries under the name "Client-ID" the single value the provider of the
client gives for the key "twitch_client_id" when the strategy runs. -/
theorem ByUserLogin_client_id_header (c : Client) (w : World) (userLogin : String) (v : Nat)
    (hc : HttpClient) (hv : c.viper = some v) (hh : c.httpClient = some hc)
    (hurl : w.parseURL (StreamsURL ++ "?user_login=" ++ userLogin) = none) :
    ∃ res w' req, c.ByUserLogin userLogin w = .ret (res, w') ∧
      w'.sent = w.sent ++ [req] ∧
      Header.Values req.header "Client-ID" = [(w.vipers v).GetString "twitch_client_id"] ∧
      req.header = [(canonicalMIMEHeaderKey "Client-ID",
        [(w.vipers v).GetString "twitch_client_id"])] := by
  obtain ⟨res, n, h⟩ := ByUserLogin_sends c w userLogin v hc hv hh hurl
  refine ⟨res, _, _, h, rfl, ?_, ?_⟩
  · have hk : canonicalMIMEHeaderKey "Client-ID" = "Client-Id" := canonical_ClientID
    simp [Header.Values, streamsRequest, hk, List.lookup, EnvTwitchClientID]
  · have hk : canonicalMIMEHeaderKey "Client-ID" = "Client-Id" := canonical_ClientID
    rw [hk]
    rfl

theorem ByUserLogin_client_id_header_witness :
    ∃ res w' req, (constClient (.ok ⟨200, ⟨[[1]], none⟩⟩)).ByUserLogin "penutty" quietWorld
        = .ret (res, w') ∧
      w'.sent = quietWorld.sent ++ [req] ∧
      Header.Values req.header "Client-ID" =
        [(quietWorld.vipers 0).GetString "twitch_client_id"] ∧
      req.header = [(canonicalMIMEHeaderKey "Client-ID",
        [(quietWorld.vipers 0).GetString "twitch_client_id"])] :=
  ByUserLogin_client_id_header (constClient (.ok ⟨200, ⟨[[1]], none⟩⟩)) quietWorld "penutty" 0
    (constTransport (.ok ⟨200, ⟨[[1]], none⟩⟩)) rfl rfl rfl

/-- C9: a strategy of `ByUserLogin` returns exactly one of a buffer and an
error; it returns the buffer exactly when the request was built, the
transport answered, the status was 200 and the copy of the body met no
error; a request that cannot be built and a body that fails to copy each
give a nil buffer and an error that has the failure as its cause and puts
the context message in front of the message of the cause. -/
theorem ByUserLogin_all_or_nothing (c : Client) (w : World) (userLogin : String) (v : Nat)
    (hc : HttpClient) (hv : c.viper = some v) (hh : c.httpClient = some hc) :
    ∃ res w', c.ByUserLogin userLogin w = .ret (res, w') ∧
      ((res.1.isSome ∧ res.2 = none) ∨ (res.1 = none ∧ res.2.isSome)) ∧
      (res.1.isSome ↔
        (w.parseURL (StreamsURL ++ "?user_login=" ++ userLogin) = none ∧
          ∃ resp, hc.Do (streamsRequest ((w.vipers v).GetString EnvTwitchClientID) userLogin)
            = .ok resp ∧ resp.StatusCode = 200 ∧ resp.Body.err = none)) ∧
      (∀ e, w.parseURL (StreamsURL ++ "?user_login=" ++ userLogin) = some e →
        ∃ err, res = (none, some err) ∧ err.cause? = some e ∧
          err.Error = "failed to create streams http.Request" ++ ": " ++ e.Error) ∧
      (∀ resp e, w.parseURL (StreamsURL ++ "?user_login=" ++ userLogin) = none →
        hc.Do (streamsRequest ((w.vipers v).GetString EnvTwitchClientID) userLogin)
          = .ok resp →
        resp.StatusCode = 200 → resp.Body.err = some e →
        ∃ err, res = (none, some err) ∧ err.cause? = some e ∧
          err.Error = "failed to Copy streams into buffer" ++ ": " ++ e.Error) := by
  cases hurl : w.parseURL (StreamsURL ++ "?user_login=" ++ userLogin) with
  | some e0 =>
    refine ⟨_, _, ByUserLogin_request_error c w userLogin e0 hurl, ?_, ?_, ?_, ?_⟩
    · exact Or.inr ⟨rfl, rfl⟩
    · simp
    · intro e he
      cases he
      exact ⟨_, rfl, rfl, rfl⟩
    · intro resp e he
      cases he
  | none =>
    rw [ByUserLogin_run c w userLogin v hc hv hh hurl]
    dsimp only
    cases hdo : hc.Do (streamsRequest ((w.vipers v).GetString EnvTwitchClientID) userLogin) with
    | error err =>
      exact ⟨_, _, rfl, Or.inr ⟨rfl, rfl⟩, by simp, by simp, by simp⟩
    | ok resp =>
      by_cases hs : resp.StatusCode = 200
      · cases he : resp.Body.err with
        | none =>
          refine ⟨(some ⟨resp.Body.chunks.flatten⟩, none), w.afterSend (streamsRequest ((w.vipers v).GetString EnvTwitchClientID) userLogin) 1,
            by simp [hs, he], ?_, ?_, ?_, ?_⟩
          · exact Or.inl ⟨rfl, rfl⟩
          · simp [hs, he]
          · simp
          · intro resp' e _ h1 _ h2
            cases h1
            rw [he] at h2
            cases h2
        | some err =>
          refine ⟨(none, some (errorsWrap err "failed to Copy streams into buffer")),
            w.afterSend (streamsRequest ((w.vipers v).GetString EnvTwitchClientID) userLogin) 1,
            by simp [hs, he], ?_, ?_, ?_, ?_⟩
          · exact Or.inr ⟨rfl, rfl⟩
          · simp [he]
          · simp
          · intro resp' e _ h1 _ h2
            cases h1
            rw [he] at h2
            cases h2
            exact ⟨_, rfl, rfl, rfl⟩
      · refine ⟨(none, some (errorsErrorf ("failed to retrieve Streams by userLogin " ++
          userLogin ++ ", StatusCode = " ++ formatInt resp.StatusCode))),
          w.afterSend (streamsRequest ((w.vipers v).GetString EnvTwitchClientID) userLogin) 1,
          by simp [hs], ?_, ?_, ?_, ?_⟩
        · exact Or.inr ⟨rfl, rfl⟩
        · simp [hs]
        · simp
        · intro resp' e _ h1 h2 _
          cases h1
          exact absurd h2 hs

theorem ByUserLogin_all_or_nothing_witness :
    ∃ res w', (constClient (.ok ⟨200, ⟨[[7, 8]], some (.fundamental "unexpected EOF")⟩⟩)).ByUserLogin
        "penutty" quietWorld = .ret (res, w') ∧
      ((res.1.isSome ∧ res.2 = none) ∨ (res.1 = none ∧ res.2.isSome)) ∧
      res.1 = none ∧
      ∃ err, res = (none, some err) ∧
        err.cause? = some (.fundamental "unexpected EOF") ∧
        err.Error = "failed to Copy streams into buffer: unexpected EOF" := by
  obtain ⟨res, w', hrun, hone, _, _, hcopy⟩ :=
    ByUserLogin_all_or_nothing
      (constClient (.ok ⟨200, ⟨[[7, 8]], some (.fundamental "unexpected EOF")⟩⟩))
      quietWorld "penutty" 0
      (constTransport (.ok ⟨200, ⟨[[7, 8]], some (.fundamental "unexpected EOF")⟩⟩)) rfl rfl
  obtain ⟨err, hres, hcause, hmsg⟩ :=
    hcopy ⟨200, ⟨[[7, 8]], some (.fundamental "unexpected EOF")⟩⟩
      (.fundamental "unexpected EOF") rfl rfl rfl rfl
  exact ⟨res, w', hrun, hone, by rw [hres], err, hres, hcause, by rw [hmsg]; decide⟩

/-- C7, as stated, fails: a provider that defines "twitch_client_id" through
a default of its own does not keep that value; after `WithViper` the key
reads as the fixed default. -/
theorem WithViper_replaces_earlier_default :
    defaultedViper.IsSet "twitch_client_id" = true ∧
    defaultedViper.GetString "twitch_client_id" = "my-own-client-id" ∧
    ∃ c' w', WithViper (some 0) Client.new defaultedWorld = .ret (c', w') ∧
      (w'.vipers 0).GetString "twitch_client_id" = "kkjo0gmafpxng9jlmod6g8x0z7rjjj" ∧
      (w'.vipers 0).GetString "twitch_client_id" ≠
        (defaultedWorld.vipers 0).GetString "twitch_client_id" := by
  refine ⟨by decide, by decide, _, _, rfl, ?_, ?_⟩
  · simp [defaultedWorld, Viper.GetString, EnvTwitchClientID,
      Get_SetDefault_self defaultedViper _ _ rfl]
  · simp [defaultedWorld, Viper.GetString, EnvTwitchClientID,
      Get_SetDefault_self defaultedViper _ _ rfl]
    decide

/-- C7, amended: `WithViper(v)` returns with `v` installed; afterwards
"twitch_client_id" reads from `v` as the fixed default when `v` held no
value for it above its defaults (a key defined nowhere, or only by an
earlier default, which is replaced), and as the value `v` held above its
defaults, unchanged, when there was one; no other key of `v` and no other
provider changes. -/
theorem WithViper_seeds_default (p : Nat) (c : Client) (w : World) :
    ∃ c' w', WithViper (some p) c w = .ret (c', w') ∧
      c'.viper = some p ∧ c'.httpClient = c.httpClient ∧
      ((w.vipers p).IsSet "twitch_client_id" = false →
        (w'.vipers p).GetString "twitch_client_id" = "kkjo0gmafpxng9jlmod6g8x0z7rjjj") ∧
      ((w.vipers p).higher.lookup "twitch_client_id" = none →
        (w'.vipers p).GetString "twitch_client_id" = "kkjo0gmafpxng9jlmod6g8x0z7rjjj") ∧
      (∀ x, (w.vipers p).higher.lookup "twitch_client_id" = some x →
        (w'.vipers p).GetString "twitch_client_id" = x) ∧
      (∀ k, k ≠ "twitch_client_id" → (w'.vipers p).Get k = (w.vipers p).Get k) ∧
      (∀ q, q ≠ p → w'.vipers q = w.vipers q) := by
  have hnone : (w.vipers p).higher.lookup "twitch_client_id" = none →
      (Function.update w.vipers p ((w.vipers p).SetDefault EnvTwitchClientID
        "kkjo0gmafpxng9jlmod6g8x0z7rjjj") p).GetString "twitch_client_id" =
        "kkjo0gmafpxng9jlmod6g8x0z7rjjj" := by
    intro h
    simp [Viper.GetString, EnvTwitchClientID, Get_SetDefault_self _ _ _ h]
  refine ⟨_, _, rfl, rfl, rfl, ?_, hnone, ?_, ?_, ?_⟩
  · intro h
    apply hnone
    cases hl : (w.vipers p).higher.lookup "twitch_client_id" with
    | none => rfl
    | some x => simp [Viper.IsSet, Viper.Get, hl] at h
  · intro x h
    simp [Viper.GetString, EnvTwitchClientID, Get_SetDefault_higher _ _ _ _ h]
  · intro k hk
    simp [EnvTwitchClientID, Get_SetDefault_other _ _ _ _ hk]
  · intro q hq
    simp [Function.update, hq]

/-- C3, as stated, fails: when the transport answers with status 200 and an
empty body, the strategy run through `Streams` returns an empty buffer
together with a nil error. -/
theorem Streams_ByUserLogin_empty_body :
    (∃ w', (constClient (.ok ⟨200, ⟨[], none⟩⟩)).Streams
        ((constClient (.ok ⟨200, ⟨[], none⟩⟩)).ByUserLogin "summit1g") quietWorld
        = .ret ((some ⟨[]⟩, none), w')) ∧
    ¬ ∃ res w', (constClient (.ok ⟨200, ⟨[], none⟩⟩)).Streams
        ((constClient (.ok ⟨200, ⟨[], none⟩⟩)).ByUserLogin "summit1g") quietWorld
        = .ret (res, w') ∧
      ((∃ buf, res.1 = some buf ∧ buf.bytes ≠ []) ∨ res.2 ≠ none) := by
  have hrun : (constClient (.ok ⟨200, ⟨[], none⟩⟩)).Streams
      ((constClient (.ok ⟨200, ⟨[], none⟩⟩)).ByUserLogin "summit1g") quietWorld
      = .ret ((some ⟨[]⟩, none), quietWorld.afterSend
        (streamsRequest ((quietWorld.vipers 0).GetString EnvTwitchClientID) "summit1g") 1) := by
    simp only [Client.Streams]
    rw [ByUserLogin_run (constClient (.ok ⟨200, ⟨[], none⟩⟩)) quietWorld "summit1g" 0
      (constTransport (.ok ⟨200, ⟨[], none⟩⟩)) rfl rfl rfl]
    simp [constTransport]
  refine ⟨⟨_, hrun⟩, ?_⟩
  rintro ⟨res, w', h, hres⟩
  rw [hrun] at h
  cases h
  simp at hres

/-- C3, amended: for a client with both dependencies, every login and every
behaviour of the transport, the strategy of `ByUserLogin` run through
`Streams` returns, and it returns a non-nil buffer or a non-nil error, never
a nil buffer with a nil error; a returned buffer holds exactly the body of
the 200 response, so it is empty exactly when that body is. -/
theorem Streams_ByUserLogin_buffer_or_error (c : Client) (w : World) (userLogin : String)
    (v : Nat) (hc : HttpClient) (hv : c.viper = some v) (hh : c.httpClient = some hc) :
    ∃ res w', c.Streams (c.ByUserLogin userLogin) w = .ret (res, w') ∧
      (res.1 ≠ none ∨ res.2 ≠ none) ∧
      (∀ buf, res.1 = some buf →
        ∃ resp, hc.Do (streamsRequest ((w.vipers v).GetString EnvTwitchClientID) userLogin)
          = .ok resp ∧ resp.StatusCode = 200 ∧ buf.bytes = resp.Body.chunks.flatten ∧
          (buf.bytes = [] ↔ resp.Body.chunks.flatten = [])) := by
  obtain ⟨res, w', h, hres⟩ := ByUserLogin_cases c w userLogin v hc hv hh
  refine ⟨res, w', h, ?_, ?_⟩
  · rcases hres with ⟨e, rfl⟩ | ⟨resp, _, _, _, rfl⟩
    · exact Or.inr (by simp)
    · exact Or.inl (by simp)
  · intro buf hbuf
    rcases hres with ⟨e, rfl⟩ | ⟨resp, hdo, hs, _, rfl⟩
    · cases hbuf
    · cases hbuf
      exact ⟨resp, hdo, hs, rfl, Iff.rfl⟩

theorem Streams_ByUserLogin_buffer_or_error_witness :
    ∃ res w', (constClient (.ok ⟨200, ⟨[], none⟩⟩)).Streams
        ((constClient (.ok ⟨200, ⟨[], none⟩⟩)).ByUserLogin "summit1g") quietWorld
        = .ret (res, w') ∧
      (res.1 ≠ none ∨ res.2 ≠ none) ∧
      (∀ buf, res.1 = some buf →
        ∃ resp, (constTransport (.ok ⟨200, ⟨[], none⟩⟩)).Do
          (streamsRequest ((quietWorld.vipers 0).GetString EnvTwitchClientID) "summit1g")
          = .ok resp ∧ resp.StatusCode = 200 ∧ buf.bytes = resp.Body.chunks.flatten ∧
          (buf.bytes = [] ↔ resp.Body.chunks.flatten = [])) :=
  Streams_ByUserLogin_buffer_or_error (constClient (.ok ⟨200, ⟨[], none⟩⟩)) quietWorld
    "summit1g" 0 (constTransport (.ok ⟨200, ⟨[], none⟩⟩)) rfl rfl

/-- C6: `NewClient` returns a client exactly when the options, applied in
order to an empty client, all return and leave both the transport and the
provider non-nil; otherwise it does not return (it panics or ends the
process); so a returned client has both dependencies.  In particular no
option, a missing transport or provider option, and a nil transport or
provider each end without a client. -/
theorem NewClient_returns_iff (options : List ClientOption) (w : World) :
    (∀ c w', NewClient options w = .ret (c, w') ↔
      (applyOptions options Client.new w = .ret (c, w') ∧
        c.httpClient.isSome ∧ c.viper.isSome)) ∧
    ((¬ ∃ c w', applyOptions options Client.new w = .ret (c, w') ∧
        c.httpClient.isSome ∧ c.viper.isSome) →
      (NewClient options w).returned = false) ∧
    (∀ c w', NewClient options w = .ret (c, w') → c.httpClient ≠ none ∧ c.viper ≠ none) ∧
    NewClient [] w = .fatal "failed to initialize httpClient field" ∧
    (∀ p, NewClient [WithViper (some p)] w = .fatal "failed to initialize httpClient field") ∧
    (∀ h, NewClient [WithHttpClient (some h)] w = .fatal "failed to initialize viper field") ∧
    (∀ p, NewClient [WithHttpClient none, WithViper (some p)] w
      = .fatal "failed to initialize httpClient field") ∧
    (∀ h, NewClient [WithHttpClient (some h), WithViper none] w = .panic) ∧
    (∀ h p, ∃ w', NewClient [WithHttpClient (some h), WithViper (some p)] w
      = .ret ({ viper := some p, httpClient := some h }, w')) := by
  have key : ∀ c w', NewClient options w = .ret (c, w') ↔
      (applyOptions options Client.new w = .ret (c, w') ∧
        c.httpClient.isSome ∧ c.viper.isSome) := by
    intro c w'
    unfold NewClient
    cases happ : applyOptions options Client.new w with
    | ret r =>
      obtain ⟨c0, w0⟩ := r
      cases hh : c0.httpClient <;> cases hv : c0.viper <;>
        simp [hh, hv] <;> intro h1 _ <;> subst h1 <;> simp [hh, hv]
    | panic => simp
    | fatal msg => simp
  refine ⟨key, ?_, ?_, rfl, fun _ => rfl, fun _ => rfl, fun _ => rfl, fun _ => rfl,
    fun _ _ => ⟨_, rfl⟩⟩
  · intro hno
    cases hN : NewClient options w with
    | ret r =>
      obtain ⟨c0, w0⟩ := r
      exact absurd ⟨c0, w0, (key c0 w0).1 hN⟩ hno
    | panic => rfl
    | fatal msg => rfl
  · intro c w' h
    have h2 := ((key c w').1 h).2
    constructor
    · intro hn
      simp [hn] at h2
    · intro hn
      simp [hn] at h2

end Twitch
